import Mathlib

/-!
# Verification of the FDP-par-Commune acquisition pipeline

Shallow embedding of `fdp_par_commune.py` (class `FDPParCommune`):
the department-code derivation (`_get_dep`), the commune search and
selection flow (`_search_commune`), the WFS layer fetcher
(`_load_wfs_layer`), the paginated SIRENE registry ingester
(`_load_sirene`) and the orchestrating `processAlgorithm` fetch and
composition phases.

External collaborators (the QGIS geometry engine `native:clip` /
`native:reprojectlayer`, the network, the Qt selection dialog and the
cancellation feedback object) are modelled as explicit parameters:
layer transformations are recorded syntactically so that theorems can
speak about which reprojections and clips a delivered layer went
through.
-/

namespace FDP

/-! ## JSON-ish field values

A field read from the registry JSON via `etab.get(...)` is either
absent / `null` (Python `None`, modelled by `Option.none`), a number,
or a string.  Numbers are modelled by `Rat`. -/

inductive JVal where
  | jnum (q : Rat)
  | jstr (s : String)
deriving DecidableEq, Repr

/-- Python truthiness of an optional field value: `None`, numeric `0`
and the empty string are falsy (`if not lat or not lon` in
`_load_sirene`). -/
def truthy : Option JVal → Bool
  | none => false
  | some (.jnum q) => if q = 0 then false else true
  | some (.jstr s) => if s = "" then false else true

/-- Digits to a natural number, `foldl`-style. -/
def digitsToNat (l : List Char) : Nat :=
  l.foldl (fun a c => a * 10 + (c.toNat - 48)) 0

/-- Model of Python `float(str)` on the decimal fragment
`digits [ "." digits ]` with at least one digit (no exponent,
infinity or nan forms, which never occur in coordinate fields). -/
def parseUnsigned (l : List Char) : Option Rat :=
  let intPart := l.takeWhile Char.isDigit
  let rest := l.dropWhile Char.isDigit
  match rest with
  | [] => if intPart = [] then none else some (digitsToNat intPart : Rat)
  | '.' :: frac =>
      if frac.all Char.isDigit ∧ (intPart ≠ [] ∨ frac ≠ []) then
        some ((digitsToNat intPart : Rat)
          + (digitsToNat frac : Rat) / ((10 : Rat) ^ frac.length))
      else none
  | _ => none

/-- Python `str.strip()` on a character list. -/
def pyStrip (l : List Char) : List Char :=
  ((l.dropWhile Char.isWhitespace).reverse.dropWhile Char.isWhitespace).reverse

/-- Python `float(str)`: strip surrounding whitespace, optional sign,
then an unsigned decimal literal. -/
def parsePyFloat (s : String) : Option Rat :=
  match pyStrip s.data with
  | '-' :: rest => (parseUnsigned rest).map (fun q => -q)
  | '+' :: rest => parseUnsigned rest
  | l => parseUnsigned l

/-- Python `float(value)` on an optional JSON value: `float(None)`
raises `TypeError`, `float` of a number is itself, `float` of a string
parses it. -/
def pyFloat : Option JVal → Option Rat
  | none => none
  | some (.jnum q) => some q
  | some (.jstr s) => parsePyFloat s

/-! ## Registry data model (`_load_sirene` input)

One nested establishment object of a company record of the
`recherche-entreprises` JSON response.  Every field is optional, as
`etab.get(...)` is. -/

structure Etab where
  etat_administratif : Option String
  latitude : Option JVal
  longitude : Option JVal
  siret : Option String
  activite_principale : Option String
  adresse : Option String
deriving DecidableEq, Repr

structure Company where
  nom_complet : Option String
  matching_etablissements : List Etab
deriving DecidableEq, Repr

/-- One page of the registry response (`total_results`, `total_pages`,
`results`; the `data.get(..., default)` defaults are applied by the
JSON decoding layer, so the fields are plain here). -/
structure Page where
  total_results : Nat
  total_pages : Nat
  results : List Company
deriving DecidableEq, Repr

/-- One point feature built for the SIRENE memory layer: geometry
`(lon, lat)` and the four attributes set in `_load_sirene`. -/
structure SFeat where
  lon : Rat
  lat : Rat
  siret : String
  nom : String
  activite : String
  adresse : String
deriving DecidableEq, Repr

/-- The per-establishment body of the extraction loop of
`_load_sirene`: skip unless `etat_administratif == 'A'`; skip when
`not lat or not lon` (truthiness!); then build the point from
`float(lon), float(lat)`, dropping the record if a conversion
raises. -/
def mkFeat (nomComplet : String) (e : Etab) : Option SFeat :=
  if e.etat_administratif ≠ some "A" then none
  else if !truthy e.latitude || !truthy e.longitude then none
  else
    match pyFloat e.longitude, pyFloat e.latitude with
    | some x, some y =>
        some { lon := x, lat := y,
               siret := e.siret.getD "",
               nom := nomComplet,
               activite := e.activite_principale.getD "",
               adresse := e.adresse.getD "" }
    | _, _ => none

/-- All features extracted from one page, in response order: the two
nested `for` loops over `data['results']` and
`company['matching_etablissements']`. -/
def extractPage (p : Page) : List SFeat :=
  p.results.flatMap fun c =>
    c.matching_etablissements.filterMap (mkFeat (c.nom_complet.getD ""))

/-! ## `_get_dep`: department code from the INSEE code -/

/-- Python `str.startswith`, on character lists. -/
def listStarts : List Char → List Char → Bool
  | _, [] => true
  | [], _ :: _ => false
  | c :: cs, d :: ds => c = d && listStarts cs ds

/-- Python `s.startswith(pre)`. -/
def pyStartsWith (s pre : String) : Bool :=
  listStarts s.data pre.data

/-- Python slice `s[:n]`. -/
def pySlice (s : String) (n : Nat) : String :=
  ⟨s.data.take n⟩

def getDep (insee : String) : String :=
  if pyStartsWith insee "2A" then "2A"
  else if pyStartsWith insee "2B" then "2B"
  else if pyStartsWith insee "97" then pySlice insee 3
  else pySlice insee 2

/-! ## Layers and the external geometry engine

A `Layer` records, syntactically, how a delivered `QgsVectorLayer` was
produced: a WFS `GetFeature` load (whose URI carries
`SRSNAME=EPSG:2154`, so the layer arrives in that frame), the SIRENE
point memory layer (created as `Point?crs=EPSG:4326`), and the two
external geometry-engine operations `native:reprojectlayer` and
`native:clip` applied to a layer.  The clip overlay is always the
single-feature `_boundary` memory layer built from the commune
contour. -/

inductive Layer where
  | wfsLayer (typename : String) (crs : String) (nfeat : Nat)
  | memPoints (feats : List SFeat) (crs : String)
  | reprojectL (src : Layer) (target : String)
  | clipL (src : Layer) (overlay : String)
deriving DecidableEq, Repr

/-- The reference frame a layer is in after its transformations. -/
def Layer.crsOf : Layer → String
  | .wfsLayer _ c _ => c
  | .memPoints _ c => c
  | .reprojectL _ t => t
  | .clipL l _ => l.crsOf

/-- Whether the layer, as delivered, went through a final clip against
the commune `_boundary` layer. -/
def Layer.clippedToBoundary : Layer → Bool
  | .clipL _ ov => if ov = "_boundary" then true else false
  | _ => false

/-- Warnings pushed via `feedback.pushWarning` on the paths the claims
are about. -/
inductive Warn where
  | wfsInvalid (name : String)
  | wfsEmpty (name : String)
  | clipFailed (name : String)
  | sireneTruncated
  | sireneHttp
  | sireneOther
deriving DecidableEq, Repr

/-! ## `_load_wfs_layer` -/

/-- Outcome of constructing the `QgsVectorLayer` over the WFS URI:
either `layer.isValid()` is false, or the layer holds
`layer.featureCount()` features. -/
inductive WfsLoadRes where
  | invalid
  | loaded (nfeat : Nat)
deriving DecidableEq, Repr

/-- `_load_wfs_layer`: load the WFS layer (environment outcome
`res`); invalid → warning and `None`; zero features → warning and
`None`; otherwise clip against the boundary, falling back to the
unclipped layer (with a warning) when `native:clip` raises
(environment outcome `clipOk = false`). -/
def loadWfsLayer (res : WfsLoadRes) (clipOk : Bool)
    (typename displayName : String) : List Warn × Option Layer :=
  match res with
  | .invalid => ([.wfsInvalid displayName], none)
  | .loaded n =>
    if n = 0 then ([.wfsEmpty displayName], none)
    else
      let raw := Layer.wfsLayer typename "EPSG:2154" n
      if clipOk then ([], some (.clipL raw "_boundary"))
      else ([.clipFailed displayName], some raw)

/-! ## `_load_sirene` -/

/-- The fixed inter-page delay, `time.sleep(0.15)`, in milliseconds. -/
def interPageDelayMs : Nat := 150

/-- Execution trace of `_load_sirene`: the page numbers requested (in
order), the page numbers at which `feedback.isCanceled()` was polled
(in order, each poll happening just before the fetch of that page),
the number of `time.sleep(0.15)` calls, and the warnings pushed. -/
structure STrace where
  requests : List Nat
  checks : List Nat
  sleeps : Nat
  warns : List Warn
deriving DecidableEq, Repr

/-- The registry `while page <= total_pages` loop after the first
iteration fixed `total_pages = N`: iterate pages `page, page+1, …, N`
(`fuel = N + 1 - page` iterations).  Each iteration polls
cancellation, issues the page request (an `Except.error` response is
an HTTP failure raised by `raise_for_status`), appends the page's
extracted establishments, and sleeps iff a further page remains. -/
def sireneLoopAux (resp : Nat → Except Unit Page) (cancel : Nat → Bool)
    (N : Nat) : Nat → Nat → List SFeat → STrace → STrace × Option (List SFeat)
  | _, 0, acc, tr => (tr, some acc)
  | page, fuel + 1, acc, tr =>
    let tr1 := { tr with checks := tr.checks ++ [page] }
    if cancel page then (tr1, none)
    else
      let tr2 := { tr1 with requests := tr1.requests ++ [page] }
      match resp page with
      | .error _ => ({ tr2 with warns := tr2.warns ++ [.sireneHttp] }, none)
      | .ok p =>
        let acc2 := acc ++ extractPage p
        let tr3 := if page + 1 ≤ N then { tr2 with sleeps := tr2.sleeps + 1 } else tr2
        sireneLoopAux resp cancel N (page + 1) fuel acc2 tr3

/-- The full pagination loop of `_load_sirene`, starting from
`page = 1, total_pages = 1`: the first iteration reads
`total_pages` (and the 10 000-results truncation warning) from the
first response, then the remaining pages run with `total_pages`
fixed.  Returns the trace together with `some accumulated` on normal
exit, `none` on cancellation or HTTP failure. -/
def sireneRun (resp : Nat → Except Unit Page) (cancel : Nat → Bool) :
    STrace × Option (List SFeat) :=
  let tr1 : STrace := { requests := [], checks := [1], sleeps := 0, warns := [] }
  if cancel 1 then (tr1, none)
  else
    let tr2 := { tr1 with requests := [1] }
    match resp 1 with
    | .error _ => ({ tr2 with warns := [.sireneHttp] }, none)
    | .ok p1 =>
      let N := p1.total_pages
      let tr3 := { tr2 with
        warns := if 10000 ≤ p1.total_results then [.sireneTruncated] else [],
        sleeps := if 2 ≤ N then 1 else 0 }
      sireneLoopAux resp cancel N 2 (N - 1) (extractPage p1) tr3

/-- `_load_sirene`: run the pagination loop; on normal exit with zero
collected features return `None`; otherwise reproject the EPSG:4326
point memory layer to EPSG:2154 and clip it to the boundary.
`geomOk = false` models the external engine raising in this final
reproject/clip step (caught by the generic handler: warning,
`None`). -/
def loadSirene (resp : Nat → Except Unit Page) (cancel : Nat → Bool)
    (geomOk : Bool) : STrace × Option Layer :=
  match sireneRun resp cancel with
  | (tr, none) => (tr, none)
  | (tr, some acc) =>
    if acc.length = 0 then (tr, none)
    else if geomOk then
      (tr, some (.clipL (.reprojectL (.memPoints acc "EPSG:4326") "EPSG:2154")
        "_boundary"))
    else ({ tr with warns := tr.warns ++ [.sireneOther] }, none)

/-! ## `_search_commune` and the commune selection dialog -/

/-- One commune candidate returned by the geo API (`nom` and INSEE
`code`; the contour geometry plays no role in the claims below). -/
structure Commune where
  nom : String
  code : String
deriving DecidableEq, Repr

/-- Result of `_search_commune` as observed by `processAlgorithm`:
the zero-feature case raises (`NotFound`), the dialog path may return
`None` (modelled `cancelledSel`), otherwise a commune. -/
inductive SearchRes where
  | notFound
  | cancelledSel
  | found (c : Commune)
deriving DecidableEq, Repr

/-- `_search_commune`, with the Qt dialog abstracted into the
`choose` callback (`dlg.exec_() != Accepted or selected is None` is
`choose = none`).  The first component records each invocation of the
callback with the candidate list it was given. -/
def searchCommune (features : List Commune)
    (choose : List Commune → Option Commune) :
    List (List Commune) × SearchRes :=
  match features with
  | [] => ([], .notFound)
  | [f] => ([], .found f)
  | f1 :: f2 :: rest =>
      ([f1 :: f2 :: rest],
        match choose (f1 :: f2 :: rest) with
        | none => .cancelledSel
        | some c => .found c)

/-! ## `processAlgorithm`: fetch loop and composition -/

/-- The fixed, ordered WFS source list `wfs_definitions`:
`(typename, display name, style key)`. -/
def wfsDefinitions : List (String × String × String) :=
  [("ADMINEXPRESS-COG-CARTO.LATEST:commune", "Commune (limite)", "commune_boundary"),
   ("CADASTRALPARCELS.PARCELLAIRE_EXPRESS:parcelle", "Parcelles cadastrales", "parcels"),
   ("BDTOPO_V3:cours_d_eau", "Hydrographie - cours d'eau", "rivers"),
   ("BDTOPO_V3:surface_hydrographique", "Hydrographie - surface", "water_surface"),
   ("BDTOPO_V3:troncon_de_route", "Voirie", "roads"),
   ("BDTOPO_V3:troncon_de_voie_ferree", "Voie ferrée", "railways"),
   ("BDTOPO_V3:batiment", "Bâti", "buildings"),
   ("BDTOPO_V3:zone_de_vegetation", "Végétation", "vegetation")]

/-- The composition order `layer_order` (top of the legend first). -/
def layerOrder : List String :=
  ["sirene", "buildings", "roads", "railways", "vegetation",
   "rivers", "water_surface", "parcels", "commune_boundary"]

/-- Lookup in the `loaded_layers` dict (keys are distinct). -/
def lookupKey (k : String) (l : List (String × Layer)) : Option Layer :=
  (l.find? fun p => p.1 = k).map Prod.snd

/-- The whole external environment of one `processAlgorithm` run:
the geo-API commune candidates, the selection dialog, the
cancellation polls of the WFS fetch loop (`cancelFetch i` is
`feedback.isCanceled()` before source `i`, and `cancelFetch 8` the
poll guarding the SIRENE phase), the per-typename WFS load and clip
outcomes, and the SIRENE response stream / cancellation / final
geometry outcome. -/
structure PipeEnv where
  communes : List Commune
  choose : List Commune → Option Commune
  cancelFetch : Nat → Bool
  wfsLoad : String → WfsLoadRes
  wfsClipOk : String → Bool
  sResp : Nat → Except Unit Page
  sCancel : Nat → Bool
  sGeomOk : Bool

/-- The `for i, (typename, display_name, style_key) in enumerate(…)`
loop of `processAlgorithm`: before each source poll cancellation —
when it fires the whole algorithm `return {}`s (third component
`true`); otherwise load the source and record the layer when one is
returned. -/
def fetchWfsAux (env : PipeEnv) :
    List (String × String × String) → Nat → List Warn →
    List (String × Layer) → List Warn × List (String × Layer) × Bool
  | [], _, warns, acc => (warns, acc, false)
  | (ty, disp, key) :: rest, i, warns, acc =>
    if env.cancelFetch i then (warns, acc, true)
    else
      let (w, res) := loadWfsLayer (env.wfsLoad ty) (env.wfsClipOk ty) ty disp
      let acc2 := match res with
        | some l => acc ++ [(key, l)]
        | none => acc
      fetchWfsAux env rest (i + 1) (warns ++ w) acc2

/-- Errors that abort the whole run (`raise Exception(...)`). -/
inductive PipeErr where
  | notFound
  | cancelledSelection
deriving DecidableEq, Repr

/-- `processAlgorithm`, from commune resolution to the composition of
the loaded layers into the legend group: on success, the pushed
warnings and the `(style_key, layer)` pairs added to the group, in
`layer_order`.  A cancellation observed inside the WFS fetch loop
makes the algorithm return `{}` at once: nothing is composed. -/
def processAlgorithm (env : PipeEnv) :
    Except PipeErr (List Warn × List (String × Layer)) :=
  match searchCommune env.communes env.choose with
  | (_, .notFound) => .error .notFound
  | (_, .cancelledSel) => .error .cancelledSelection
  | (_, .found _) =>
    match fetchWfsAux env wfsDefinitions 0 [] [] with
    | (warns, _, true) => .ok (warns, [])
    | (warns, loaded, false) =>
      let (warns2, loaded2) :=
        if env.cancelFetch 8 then (warns, loaded)
        else
          match loadSirene env.sResp env.sCancel env.sGeomOk with
          | (str, some l) => (warns ++ str.warns, loaded ++ [("sirene", l)])
          | (str, none) => (warns ++ str.warns, loaded)
      .ok (warns2, layerOrder.filterMap fun k =>
        (lookupKey k loaded2).map fun l => (k, l))

/-- The `(style_key, layer)` pairs composed into the legend group by a
run (empty when the run aborted). -/
def composedLayers (env : PipeEnv) : List (String × Layer) :=
  match processAlgorithm env with
  | .ok (_, ls) => ls
  | .error _ => []

/-- Per-source results of the fetch phase over a source sublist, with
no interleaved cancellation: what each source contributes is a
function of its own load/clip outcome alone. -/
def wfsResultsOn (env : PipeEnv) (defs : List (String × String × String)) :
    List (String × Layer) :=
  defs.filterMap fun d =>
    ((loadWfsLayer (env.wfsLoad d.1) (env.wfsClipOk d.1) d.1 d.2.1).2).map
      fun l => (d.2.2, l)

/-- Warnings of the fetch phase over a source sublist. -/
def wfsWarnsOn (env : PipeEnv) (defs : List (String × String × String)) :
    List Warn :=
  defs.flatMap fun d =>
    (loadWfsLayer (env.wfsLoad d.1) (env.wfsClipOk d.1) d.1 d.2.1).1

/-- The contribution of the SIRENE phase to `loaded_layers`. -/
def sireneEntry (env : PipeEnv) : List (String × Layer) :=
  match (loadSirene env.sResp env.sCancel env.sGeomOk).2 with
  | some l => [("sirene", l)]
  | none => []

/-- The composition step of `processAlgorithm`: walk `layer_order` and
keep the loaded layers, in that order. -/
def composeOf (loaded : List (String × Layer)) : List (String × Layer) :=
  layerOrder.filterMap fun k => (lookupKey k loaded).map fun l => (k, l)

/-! ## Concrete fixtures

Concrete establishments, pages and environments used by the witness
and counterexample theorems below. -/

/-- An active establishment with ordinary parseable coordinates. -/
def ePass : Etab :=
  { etat_administratif := some "A", latitude := some (.jnum 45),
    longitude := some (.jnum 3), siret := some "12345678900011",
    activite_principale := some "62.01Z", adresse := some "1 rue A" }

/-- An active establishment whose latitude is the JSON number `0`:
present and numerically parseable, but falsy in Python. -/
def eZero : Etab :=
  { etat_administratif := some "A", latitude := some (.jnum 0),
    longitude := some (.jnum 3), siret := some "98765432100022",
    activite_principale := none, adresse := none }

/-- A closed (non-active) establishment. -/
def eClosed : Etab :=
  { etat_administratif := some "F", latitude := some (.jnum 45),
    longitude := some (.jnum 3), siret := some "11111111100033",
    activite_principale := none, adresse := none }

def coTest : Company :=
  { nom_complet := some "ACME", matching_etablissements := [ePass, eZero, eClosed] }

/-- A two-page registry response stream. -/
def pgTest : Nat → Page := fun _ => { total_results := 3, total_pages := 2, results := [coTest] }

/-- A first page reporting `total_pages = 0`. -/
def pgZero : Page := { total_results := 0, total_pages := 0, results := [] }

/-- A three-page empty response stream. -/
def pgThree : Nat → Page := fun _ => { total_results := 5, total_pages := 3, results := [] }

/-- An HTTP failure on page 2 of a three-page stream. -/
def respErr2 : Nat → Except Unit Page := fun q =>
  if q = 2 then .error () else .ok (pgThree q)

def communeX : Commune := { nom := "Annecy", code := "74010" }

/-- A fully healthy environment: one commune match, every WFS source
valid with 3 features, every clip succeeding, an empty single-page
SIRENE response, no cancellation anywhere. -/
def envBase : PipeEnv :=
  { communes := [communeX], choose := fun _ => none,
    cancelFetch := fun _ => false,
    wfsLoad := fun _ => .loaded 3,
    wfsClipOk := fun _ => true,
    sResp := fun _ => .ok { total_results := 0, total_pages := 1, results := [] },
    sCancel := fun _ => false, sGeomOk := true }

/-- `envBase` except that clipping the buildings layer fails. -/
def envClipFail : PipeEnv :=
  { envBase with wfsClipOk := fun t => if t = "BDTOPO_V3:batiment" then false else true }

/-- `envBase` except that the buildings source returns no feature. -/
def envEmptyBuildings : PipeEnv :=
  { envBase with wfsLoad := fun t =>
      if t = "BDTOPO_V3:batiment" then .loaded 0 else .loaded 3 }

/-- `envBase` except that cancellation is observed before the second
WFS source (and at every later poll). -/
def envCancelAt1 : PipeEnv :=
  { envBase with cancelFetch := fun i => if 1 ≤ i then true else false }

/-- `envBase` with two commune candidates and a declining selection
callback. -/
def envTwoCommunes : PipeEnv :=
  { envBase with communes := [communeX, { nom := "Annecy-le-Vieux", code := "74011" }] }

/-- `envBase` with an HTTP failure on SIRENE page 2. -/
def envSireneErr : PipeEnv :=
  { envBase with sResp := respErr2 }

/-- `envBase` with the two-page SIRENE stream `pgTest`. -/
def envSireneData : PipeEnv :=
  { envBase with sResp := fun p => .ok (pgTest p) }

/-! ## Loop lemmas for the SIRENE pagination -/

/-- With no cancellation and every response succeeding, the loop over
pages `page … page+fuel-1` requests each page once (order preserved),
polls cancellation once per request, sleeps between consecutive
requests that stay within `N`, and accumulates each page's extracted
establishments in order. -/
theorem sireneLoopAux_ok (pgf : Nat → Page) (cancel : Nat → Bool) (N : Nat)
    (hc : ∀ q, cancel q = false) :
    ∀ fuel page acc tr,
      sireneLoopAux (fun q => .ok (pgf q)) cancel N page fuel acc tr =
        ({ tr with requests := tr.requests ++ List.range' page fuel,
                   checks := tr.checks ++ List.range' page fuel,
                   sleeps := tr.sleeps + min fuel (N - page) },
         some (acc ++ (List.range' page fuel).flatMap fun q => extractPage (pgf q))) := by
  intro fuel
  induction fuel with
  | zero =>
    intro page acc tr
    simp [sireneLoopAux]
  | succ fuel ih =>
    intro page acc tr
    by_cases h : page + 1 ≤ N
    · simp only [sireneLoopAux, hc page, if_neg Bool.false_ne_true, if_pos h, ih,
        List.range'_succ]
      refine Prod.ext ?_ ?_ <;> simp [List.append_assoc] <;> omega
    · simp only [sireneLoopAux, hc page, if_neg Bool.false_ne_true, if_neg h, ih,
        List.range'_succ]
      refine Prod.ext ?_ ?_ <;> simp [List.append_assoc] <;> omega

/-- A cancellation first observed at the poll before page `p` stops
the loop: pages `page … p-1` were requested (each preceded by its
poll, plus the poll at `p` that fired), and the accumulated features
are discarded (`none`). -/
theorem sireneLoopAux_cancel (pgf : Nat → Page) (cancel : Nat → Bool) (N p : Nat)
    (hcp : cancel p = true) (hc : ∀ q, q < p → cancel q = false) :
    ∀ fuel page acc tr, page ≤ p → p < page + fuel →
      sireneLoopAux (fun q => .ok (pgf q)) cancel N page fuel acc tr =
        ({ tr with requests := tr.requests ++ List.range' page (p - page),
                   checks := tr.checks ++ List.range' page (p - page + 1),
                   sleeps := tr.sleeps + min (p - page) (N - page) }, none) := by
  intro fuel
  induction fuel with
  | zero =>
    intro page acc tr h1 h2
    omega
  | succ fuel ih =>
    intro page acc tr h1 h2
    rcases Nat.eq_or_lt_of_le h1 with heq | hlt
    · subst heq
      simp [sireneLoopAux, hcp, Nat.sub_self, List.range'_one]
    · have hq := hc page hlt
      by_cases h : page + 1 ≤ N
      · simp only [sireneLoopAux, hq, if_neg Bool.false_ne_true, if_pos h,
          ih (page + 1) _ _ (by omega) (by omega)]
        have e1 : p - page = (p - (page + 1)) + 1 := by omega
        refine Prod.ext ?_ rfl
        simp only [e1, List.range'_succ]
        refine STrace.mk.injEq _ _ _ _ _ _ _ _ ▸ ?_
        simp [List.append_assoc]
        omega
      · simp only [sireneLoopAux, hq, if_neg Bool.false_ne_true, if_neg h,
          ih (page + 1) _ _ (by omega) (by omega)]
        have e1 : p - page = (p - (page + 1)) + 1 := by omega
        refine Prod.ext ?_ rfl
        simp only [e1, List.range'_succ]
        simp [List.append_assoc]
        omega

/-- An HTTP failure raised on the request for page `p` (all earlier
pages in range succeeding, no cancellation) makes the loop return
`none` with an HTTP warning pushed. -/
theorem sireneLoopAux_error (resp : Nat → Except Unit Page) (cancel : Nat → Bool)
    (N p : Nat) (pgf : Nat → Page) (hc : ∀ q, cancel q = false)
    (herr : resp p = .error ()) :
    ∀ fuel page acc tr, (∀ q, page ≤ q → q < p → resp q = .ok (pgf q)) →
      page ≤ p → p < page + fuel →
      (sireneLoopAux resp cancel N page fuel acc tr).2 = none ∧
      Warn.sireneHttp ∈ (sireneLoopAux resp cancel N page fuel acc tr).1.warns := by
  intro fuel
  induction fuel with
  | zero =>
    intro page acc tr _ h1 h2
    omega
  | succ fuel ih =>
    intro page acc tr hok h1 h2
    rcases Nat.eq_or_lt_of_le h1 with heq | hlt
    · subst heq
      simp [sireneLoopAux, hc, herr]
    · have hq := hok page (Nat.le_refl page) hlt
      by_cases h : page + 1 ≤ N <;>
        simpa [sireneLoopAux, hc page, hq, h] using
          ih (page + 1) _ _ (fun q hq1 hq2 => hok q (by omega) hq2) (by omega) (by omega)

/-- A complete, uncancelled, all-successful run of the pagination
loop: with `N` the `total_pages` reported by the first response,
exactly pages `1 … max N 1` are requested (page 1 is requested before
`N` is known), each request preceded by one cancellation poll, with
one inter-page sleep between consecutive requests, accumulating every
page's extracted establishments in order. -/
theorem sireneRun_complete (pgf : Nat → Page) (cancel : Nat → Bool)
    (hc : ∀ q, cancel q = false) :
    sireneRun (fun p => .ok (pgf p)) cancel =
      ({ requests := List.range' 1 (max (pgf 1).total_pages 1),
         checks := List.range' 1 (max (pgf 1).total_pages 1),
         sleeps := max (pgf 1).total_pages 1 - 1,
         warns := if 10000 ≤ (pgf 1).total_results then [.sireneTruncated] else [] },
       some ((List.range' 1 (max (pgf 1).total_pages 1)).flatMap
         fun p => extractPage (pgf p))) := by
  unfold sireneRun
  simp only [hc 1, Bool.false_eq_true, if_false,
    sireneLoopAux_ok pgf cancel _ hc]
  cases hN : (pgf 1).total_pages with
  | zero =>
    refine Prod.ext ?_ ?_ <;> simp [List.range'_one]
  | succ n =>
    have hmax : max (n + 1) 1 = n + 1 := by omega
    refine Prod.ext ?_ ?_
    · simp only [hmax, List.range'_succ]
      refine STrace.mk.injEq _ _ _ _ _ _ _ _ ▸ ?_
      simp only [List.singleton_append, true_and]
      constructor
      · rfl
      constructor
      · rfl
      by_cases h2 : 2 ≤ n + 1 <;> simp [h2] <;> omega
    · simp [hmax, List.range'_succ]

/-- Cancellation first observed at the poll before page `p`
(`2 ≤ p ≤ total_pages`, all responses succeeding): pages `1 … p-1`
were requested, polls happened at `1 … p`, one sleep separated each
consecutive pair of requests, and the result is `none` — the
accumulated features are discarded. -/
theorem sireneRun_cancel (pgf : Nat → Page) (cancel : Nat → Bool) (p : Nat)
    (hp2 : 2 ≤ p) (hpN : p ≤ (pgf 1).total_pages)
    (hcp : cancel p = true) (hc : ∀ q, q < p → cancel q = false) :
    sireneRun (fun q => .ok (pgf q)) cancel =
      ({ requests := List.range' 1 (p - 1),
         checks := List.range' 1 p,
         sleeps := p - 1,
         warns := if 10000 ≤ (pgf 1).total_results then [.sireneTruncated] else [] },
       none) := by
  unfold sireneRun
  simp only [hc 1 (by omega), Bool.false_eq_true, if_false]
  rw [sireneLoopAux_cancel pgf cancel _ p hcp hc _ 2 _ _ (by omega) (by omega)]
  have h2N : 2 ≤ (pgf 1).total_pages := by omega
  refine Prod.ext ?_ rfl
  have e1 : p - 1 = (p - 2) + 1 := by omega
  have e2 : List.range' 1 (p - 1) = 1 :: List.range' 2 (p - 2) := by
    rw [e1, List.range'_succ]
  have e3 : List.range' 1 p = 1 :: List.range' 2 (p - 1) := by
    have ep : p = (p - 1) + 1 := by omega
    rw [ep, List.range'_succ, ← ep, e1]
  have e4 : p - 2 + 1 = p - 1 := by omega
  simp only [STrace.mk.injEq]
  refine ⟨by rw [e2, List.singleton_append], by rw [e4, e3, List.singleton_append], ?_, trivial⟩
  simp only [h2N, if_pos]
  omega

/-- An HTTP failure on the request for page `p` (earlier pages
succeeding, no cancellation, `p` within the page range): the
pagination loop returns `none` and pushes the HTTP warning. -/
theorem sireneRun_error (resp : Nat → Except Unit Page) (cancel : Nat → Bool)
    (pgf : Nat → Page) (p : Nat) (hc : ∀ q, cancel q = false)
    (hok : ∀ q, 1 ≤ q → q < p → resp q = .ok (pgf q)) (herr : resp p = .error ())
    (hp1 : 1 ≤ p) (hpN : p ≤ max (pgf 1).total_pages 1) :
    (sireneRun resp cancel).2 = none ∧
    Warn.sireneHttp ∈ (sireneRun resp cancel).1.warns := by
  rcases Nat.eq_or_lt_of_le hp1 with heq | hlt
  · subst heq
    unfold sireneRun
    simp [hc, herr]
  · have h1 : resp 1 = .ok (pgf 1) := hok 1 (Nat.le_refl 1) hlt
    unfold sireneRun
    simp only [hc 1, Bool.false_eq_true, if_false, h1]
    exact sireneLoopAux_error resp cancel _ p pgf hc herr _ 2 _ _
      (fun q hq1 hq2 => hok q (by omega) hq2) (by omega) (by omega)

/-! ## Lemmas on the fetch loop and composition -/

/-- With no cancellation, the WFS fetch loop visits every source in
declaration order; each source contributes its own warnings and (when
a layer is returned) its own `(style_key, layer)` pair, independently
of the other sources. -/
theorem fetchWfsAux_noCancel (env : PipeEnv) (hc : ∀ i, env.cancelFetch i = false) :
    ∀ defs i warns acc,
      fetchWfsAux env defs i warns acc =
        (warns ++ wfsWarnsOn env defs, acc ++ wfsResultsOn env defs, false) := by
  intro defs
  induction defs with
  | nil =>
    intro i warns acc
    simp [fetchWfsAux, wfsWarnsOn, wfsResultsOn]
  | cons d rest ih =>
    intro i warns acc
    obtain ⟨ty, disp, key⟩ := d
    rcases hlw : loadWfsLayer (env.wfsLoad ty) (env.wfsClipOk ty) ty disp with ⟨w, res⟩
    cases res with
    | none =>
      simp [fetchWfsAux, hc i, hlw, ih, wfsWarnsOn, wfsResultsOn, List.append_assoc]
    | some l =>
      simp [fetchWfsAux, hc i, hlw, ih, wfsWarnsOn, wfsResultsOn, List.append_assoc]

/-- Cancellation first observed before source `p` stops the loop at
once: only the sources before `p` were processed, and the third
component signals the early `return {}`. -/
theorem fetchWfsAux_cancelAt (env : PipeEnv) (p : Nat)
    (hcp : env.cancelFetch p = true) (hc : ∀ q, q < p → env.cancelFetch q = false) :
    ∀ defs i warns acc, i ≤ p → p < i + defs.length →
      fetchWfsAux env defs i warns acc =
        (warns ++ wfsWarnsOn env (defs.take (p - i)),
         acc ++ wfsResultsOn env (defs.take (p - i)), true) := by
  intro defs
  induction defs with
  | nil =>
    intro i warns acc h1 h2
    simp at h2
    omega
  | cons d rest ih =>
    intro i warns acc h1 h2
    obtain ⟨ty, disp, key⟩ := d
    rcases Nat.eq_or_lt_of_le h1 with heq | hlt
    · subst heq
      simp [fetchWfsAux, hcp, Nat.sub_self, wfsWarnsOn, wfsResultsOn]
    · have e1 : p - i = (p - (i + 1)) + 1 := by omega
      rcases hlw : loadWfsLayer (env.wfsLoad ty) (env.wfsClipOk ty) ty disp with ⟨w, res⟩
      have hrec := ih (i + 1) (warns ++ w)
      cases res with
      | none =>
        simp only [fetchWfsAux, hc i hlt, Bool.false_eq_true, if_false, hlw]
        rw [ih (i + 1) _ _ (by omega) (by simp at h2 ⊢; omega)]
        simp [e1, List.take_succ_cons, wfsWarnsOn, wfsResultsOn, hlw, List.append_assoc]
      | some l =>
        simp only [fetchWfsAux, hc i hlt, Bool.false_eq_true, if_false, hlw]
        rw [ih (i + 1) _ _ (by omega) (by simp at h2 ⊢; omega)]
        simp [e1, List.take_succ_cons, wfsWarnsOn, wfsResultsOn, hlw, List.append_assoc]

/-- Every layer `_load_wfs_layer` returns is either the clipped WFS
layer or, on clip failure, the raw WFS layer — in both cases loaded
in EPSG:2154 (the URI carries `SRSNAME=EPSG:2154`). -/
theorem loadWfsLayer_shape (res : WfsLoadRes) (clipOk : Bool) (ty disp : String)
    (l : Layer) (h : (loadWfsLayer res clipOk ty disp).2 = some l) :
    (∃ n, l = .clipL (.wfsLayer ty "EPSG:2154" n) "_boundary") ∨
    (∃ n, l = .wfsLayer ty "EPSG:2154" n) := by
  cases res with
  | invalid => simp [loadWfsLayer] at h
  | loaded n =>
    by_cases h0 : n = 0
    · simp [loadWfsLayer, h0] at h
    · cases clipOk with
      | true =>
        left
        refine ⟨n, ?_⟩
        simp [loadWfsLayer, h0] at h
        exact h.symm
      | false =>
        right
        refine ⟨n, ?_⟩
        simp [loadWfsLayer, h0] at h
        exact h.symm

/-- `loaded_layers` lookup distributes over the two fetch phases. -/
theorem lookupKey_append (k : String) (l1 l2 : List (String × Layer)) :
    lookupKey k (l1 ++ l2) = (lookupKey k l1).or (lookupKey k l2) := by
  simp only [lookupKey, List.find?_append]
  cases List.find? (fun p => decide (p.1 = k)) l1 <;> simp

/-- Unfolding of the per-source results over a cons. -/
theorem wfsResultsOn_cons (env : PipeEnv) (d : String × String × String)
    (rest : List (String × String × String)) :
    wfsResultsOn env (d :: rest) =
      (match (loadWfsLayer (env.wfsLoad d.1) (env.wfsClipOk d.1) d.1 d.2.1).2 with
       | some l => [(d.2.2, l)]
       | none => []) ++ wfsResultsOn env rest := by
  simp only [wfsResultsOn, List.filterMap_cons]
  cases (loadWfsLayer (env.wfsLoad d.1) (env.wfsClipOk d.1) d.1 d.2.1).2 <;> simp

/-- If every source that carries style key `k` produced no layer, `k`
is absent from the fetch phase's `loaded_layers` entries. -/
theorem lookupKey_wfsResultsOn_none (env : PipeEnv) (k : String)
    (defs : List (String × String × String))
    (h : ∀ d ∈ defs, d.2.2 = k →
      (loadWfsLayer (env.wfsLoad d.1) (env.wfsClipOk d.1) d.1 d.2.1).2 = none) :
    lookupKey k (wfsResultsOn env defs) = none := by
  induction defs with
  | nil => simp [wfsResultsOn, lookupKey]
  | cons d rest ih =>
    have hrest := ih fun d2 hd2 => h d2 (List.mem_cons_of_mem d hd2)
    rw [wfsResultsOn_cons]
    rcases hres : (loadWfsLayer (env.wfsLoad d.1) (env.wfsClipOk d.1) d.1 d.2.1).2 with _ | l
    · simpa using hrest
    · have hk : d.2.2 ≠ k := by
        intro heq
        rw [h d (List.mem_cons_self d rest) heq] at hres
        exact Option.noConfusion hres
      have hstep : List.find? (fun p => decide (p.1 = k))
          ((d.2.2, l) :: wfsResultsOn env rest) =
          List.find? (fun p => decide (p.1 = k)) (wfsResultsOn env rest) :=
        List.find?_cons_of_neg _ (by simp [hk])
      simp only [lookupKey, List.singleton_append, hstep]
      exact hrest

/-- Membership in the composed legend group comes from a successful
`loaded_layers` lookup under the same key. -/
theorem mem_composeOf (k : String) (l : Layer) (loaded : List (String × Layer))
    (h : (k, l) ∈ composeOf loaded) : lookupKey k loaded = some l := by
  simp only [composeOf, List.mem_filterMap] at h
  obtain ⟨k2, -, hk2⟩ := h
  rcases hlk : lookupKey k2 loaded with _ | l2
  · rw [hlk] at hk2
    exact Option.noConfusion hk2
  · rw [hlk] at hk2
    simp only [Option.map_some', Option.some.injEq, Prod.mk.injEq] at hk2
    obtain ⟨rfl, rfl⟩ := hk2
    exact hlk

/-- `lookupKey` only succeeds on a present key. -/
theorem lookupKey_mem (k : String) (l : Layer) (loaded : List (String × Layer))
    (h : lookupKey k loaded = some l) : (k, l) ∈ loaded := by
  simp only [lookupKey, Option.map_eq_some'] at h
  obtain ⟨⟨k2, l2⟩, hfind, heq⟩ := h
  have hmem := List.mem_of_find?_eq_some hfind
  have hp := List.find?_some hfind
  simp only [decide_eq_true_eq] at hp
  simp only at heq
  subst hp
  subst heq
  exact hmem

/-- With no cancellation and a resolved commune, `processAlgorithm`
runs to composition: its warnings are the per-source fetch warnings
followed by the SIRENE warnings, and the composed group is
`layer_order`-filtered over the per-source results plus the SIRENE
entry. -/
theorem processAlgorithm_noCancel (env : PipeEnv) (c : Commune)
    (calls : List (List Commune))
    (hs : searchCommune env.communes env.choose = (calls, .found c))
    (hc : ∀ i, env.cancelFetch i = false) :
    processAlgorithm env = .ok
      (wfsWarnsOn env wfsDefinitions ++
        (loadSirene env.sResp env.sCancel env.sGeomOk).1.warns,
       composeOf (wfsResultsOn env wfsDefinitions ++ sireneEntry env)) := by
  unfold processAlgorithm
  rw [hs, fetchWfsAux_noCancel env hc wfsDefinitions 0 [] []]
  simp only [List.nil_append, hc 8, Bool.false_eq_true, if_false]
  rcases hls : loadSirene env.sResp env.sCancel env.sGeomOk with ⟨str, res⟩
  cases res with
  | none =>
    simp only [composeOf, sireneEntry, hls, List.append_nil]
  | some l =>
    simp only [composeOf, sireneEntry, hls]

/-- Provenance of every layer collected by the WFS fetch loop: it is
either inherited from the accumulator or a (possibly unclipped) WFS
layer in EPSG:2154. -/
theorem fetchWfsAux_mem (env : PipeEnv) :
    ∀ defs i warns acc x, x ∈ (fetchWfsAux env defs i warns acc).2.1 →
      x ∈ acc ∨ ∃ ty key n,
        x = (key, Layer.clipL (.wfsLayer ty "EPSG:2154" n) "_boundary") ∨
        x = (key, Layer.wfsLayer ty "EPSG:2154" n) := by
  intro defs
  induction defs with
  | nil =>
    intro i warns acc x hx
    left
    simpa [fetchWfsAux] using hx
  | cons d rest ih =>
    intro i warns acc x hx
    obtain ⟨ty, disp, key⟩ := d
    by_cases hcan : env.cancelFetch i = true
    · left
      simpa [fetchWfsAux, hcan] using hx
    · rcases hlw : loadWfsLayer (env.wfsLoad ty) (env.wfsClipOk ty) ty disp with ⟨w, res⟩
      cases res with
      | none =>
        exact ih (i + 1) (warns ++ w) acc x (by simpa [fetchWfsAux, hcan, hlw] using hx)
      | some l =>
        have hx2 := ih (i + 1) (warns ++ w) (acc ++ [(key, l)]) x
          (by simpa [fetchWfsAux, hcan, hlw] using hx)
        rcases hx2 with hx2 | hx2
        · rcases List.mem_append.mp hx2 with hxa | hxs
          · exact Or.inl hxa
          · right
            have hshape := loadWfsLayer_shape (env.wfsLoad ty) (env.wfsClipOk ty)
              ty disp l (by rw [hlw])
            have hxl : x = (key, l) := by simpa using hxs
            rcases hshape with ⟨n, rfl⟩ | ⟨n, rfl⟩
            · exact ⟨ty, key, n, Or.inl hxl⟩
            · exact ⟨ty, key, n, Or.inr hxl⟩
        · exact Or.inr hx2

/-- Cancellation observed before fetching source `p` makes
`processAlgorithm` return `{}` immediately: only the first `p`
sources were processed, and nothing at all is composed. -/
theorem processAlgorithm_cancelDuringFetch (env : PipeEnv) (c : Commune)
    (calls : List (List Commune)) (p : Nat)
    (hs : searchCommune env.communes env.choose = (calls, .found c))
    (hcp : env.cancelFetch p = true)
    (hc : ∀ q, q < p → env.cancelFetch q = false) (hp : p < 8) :
    processAlgorithm env = .ok (wfsWarnsOn env (wfsDefinitions.take p), []) ∧
    (fetchWfsAux env wfsDefinitions 0 [] []).2.1 =
      wfsResultsOn env (wfsDefinitions.take p) := by
  have hlen : wfsDefinitions.length = 8 := by decide
  have hfetch := fetchWfsAux_cancelAt env p hcp hc wfsDefinitions 0 [] []
    (by omega) (by rw [hlen]; omega)
  constructor
  · unfold processAlgorithm
    rw [hs, hfetch]
    simp
  · rw [hfetch]
    simp

/-! ## Claim theorems -/

/-- C3: for every input code string, the derived department identifier
follows the four rules of `_get_dep`, evaluated in order: a "2A"
start yields "2A"; otherwise a "2B" start yields "2B"; otherwise a
"97" start yields the first 3 characters; otherwise the first 2
characters — with the spec's four examples. -/
theorem getDep_rules :
    (∀ s, pyStartsWith s "2A" = true → getDep s = "2A") ∧
    (∀ s, pyStartsWith s "2A" = false → pyStartsWith s "2B" = true →
      getDep s = "2B") ∧
    (∀ s, pyStartsWith s "2A" = false → pyStartsWith s "2B" = false →
      pyStartsWith s "97" = true → getDep s = pySlice s 3) ∧
    (∀ s, pyStartsWith s "2A" = false → pyStartsWith s "2B" = false →
      pyStartsWith s "97" = false → getDep s = pySlice s 2) ∧
    getDep "2A004" = "2A" ∧ getDep "974-area" = "974" ∧
    getDep "75056" = "75" ∧ getDep "13055" = "13" := by
  refine ⟨?_, ?_, ?_, ?_, by decide, by decide, by decide, by decide⟩
  · intro s h
    simp [getDep, h]
  · intro s h1 h2
    simp [getDep, h1, h2]
  · intro s h1 h2 h3
    simp [getDep, h1, h2, h3]
  · intro s h1 h2 h3
    simp [getDep, h1, h2, h3]

/-- Witness for C3: the rules applied at the spec's concrete codes. -/
theorem getDep_rules_witness :
    getDep "2A004" = "2A" ∧ getDep "2B033" = "2B" ∧
    getDep "97416" = pySlice "97416" 3 ∧ getDep "69123" = pySlice "69123" 2 :=
  ⟨getDep_rules.1 "2A004" (by decide),
   getDep_rules.2.1 "2B033" (by decide) (by decide),
   getDep_rules.2.2.1 "97416" (by decide) (by decide) (by decide),
   getDep_rules.2.2.2.1 "69123" (by decide) (by decide) (by decide)⟩

/-- C10: an establishment whose latitude or longitude is falsy under
Python truthiness is excluded, whatever its status and however
parseable the value is — and the JSON number `0` is exactly such a
value: parseable yet falsy.  The presence test `if not lat or not
lon` is a truthiness test, not a parse test. -/
theorem sirene_falsy_coordinate_excluded :
    (∀ nomC e, truthy e.latitude = false ∨ truthy e.longitude = false →
      mkFeat nomC e = none) ∧
    truthy (some (.jnum 0)) = false ∧
    (pyFloat (some (.jnum 0))).isSome = true ∧
    truthy (some (.jstr "")) = false := by
  refine ⟨?_, by decide, by decide, by decide⟩
  intro nomC e h
  unfold mkFeat
  rcases h with h | h <;> simp [h]

/-- Witness for C10: the active establishment `eZero`, whose latitude
is the JSON number `0` (parseable, falsy), yields no feature. -/
theorem sirene_falsy_coordinate_excluded_witness :
    mkFeat "ACME" eZero = none :=
  sirene_falsy_coordinate_excluded.1 "ACME" eZero (Or.inl (by decide))

/-- C1 counterexample: `eZero` has administrative status "A" and both
coordinates present and numerically parseable (latitude is the JSON
number 0), so per the claim it must be folded into the layer — yet
extraction drops it, and a page holding only this establishment
accumulates no feature at all (`_load_sirene` returns null). -/
theorem sirene_filter_claim_counterexample :
    eZero.etat_administratif = some "A" ∧
    (pyFloat eZero.latitude).isSome = true ∧
    (pyFloat eZero.longitude).isSome = true ∧
    mkFeat "ACME" eZero = none ∧
    (loadSirene
      (fun _ => .ok (Page.mk 1 1 [Company.mk (some "ACME") [eZero]]))
      (fun _ => false) true).2 = none := by decide

/-- C1 amended: an establishment of a page yields a feature iff its
status is "A", both raw coordinate fields are truthy (present and
non-zero / non-empty) and both parse numerically; and an uncancelled,
all-successful run accumulates, page by page in order, exactly the
features extracted by this per-establishment rule (one feature per
surviving establishment), in EPSG:4326, the final layer being the
clip of the reprojection to EPSG:2154 of that point layer. -/
theorem sirene_filter_amended :
    (∀ nomC e, (mkFeat nomC e).isSome = true ↔
      (e.etat_administratif = some "A" ∧ truthy e.latitude = true ∧
       truthy e.longitude = true ∧ (pyFloat e.latitude).isSome = true ∧
       (pyFloat e.longitude).isSome = true)) ∧
    (∀ (pgf : Nat → Page) (cancel : Nat → Bool), (∀ q, cancel q = false) →
      (sireneRun (fun p => .ok (pgf p)) cancel).2 =
        some ((List.range' 1 (max (pgf 1).total_pages 1)).flatMap
          fun p => extractPage (pgf p))) ∧
    (∀ (pgf : Nat → Page) (cancel : Nat → Bool), (∀ q, cancel q = false) →
      ∀ acc, acc = (List.range' 1 (max (pgf 1).total_pages 1)).flatMap
          (fun p => extractPage (pgf p)) →
        acc ≠ [] →
        (loadSirene (fun p => .ok (pgf p)) cancel true).2 =
          some (.clipL (.reprojectL (.memPoints acc "EPSG:4326") "EPSG:2154")
            "_boundary")) := by
  refine ⟨?_, ?_, ?_⟩
  · intro nomC e
    unfold mkFeat
    by_cases h1 : e.etat_administratif = some "A"
    · rw [if_neg (by simp [h1])]
      cases hlat : truthy e.latitude <;> cases hlon : truthy e.longitude <;>
        simp [hlat, hlon, h1]
      cases hx : pyFloat e.longitude <;> cases hy : pyFloat e.latitude <;> simp
    · rw [if_pos (by simp [h1])]
      simp [h1]
  · intro pgf cancel hc
    rw [sireneRun_complete pgf cancel hc]
  · intro pgf cancel hc acc hacc hne
    unfold loadSirene
    rw [sireneRun_complete pgf cancel hc, ← hacc]
    have hlen : ¬ acc.length = 0 := by
      simpa [List.length_eq_zero] using hne
    simp [hlen]

/-- Witness for C1 (amended): on the concrete two-page stream
`pgTest`, the run accumulates exactly the surviving establishment of
each page, and the iff holds at `ePass`. -/
theorem sirene_filter_amended_witness :
    ((mkFeat "ACME" ePass).isSome = true ↔
      (ePass.etat_administratif = some "A" ∧ truthy ePass.latitude = true ∧
       truthy ePass.longitude = true ∧ (pyFloat ePass.latitude).isSome = true ∧
       (pyFloat ePass.longitude).isSome = true)) ∧
    (sireneRun (fun p => .ok (pgTest p)) (fun _ => false)).2 =
      some ((List.range' 1 (max (pgTest 1).total_pages 1)).flatMap
        fun p => extractPage (pgTest p)) :=
  ⟨sirene_filter_amended.1 "ACME" ePass,
   sirene_filter_amended.2.1 pgTest (fun _ => false) (fun q => rfl)⟩

/-- C2 counterexample: a first-page response reporting
`total_pages = 0` still gives rise to one issued request (page 1,
issued before the count is known), not zero requests as the claim's
"exactly N page requests with page numbers 1..N" demands. -/
theorem pagination_zero_pages_counterexample :
    pgZero.total_pages = 0 ∧
    (sireneRun (fun _ => .ok pgZero) (fun _ => false)).1.requests = [1] := by decide

/-- C2 amended: with `N` the `total_pages` of the first response, an
uncancelled all-successful ingestion issues exactly `max N 1` page
requests numbered `1 … max N 1` (the page-1 request precedes the
report of `N`), polls cancellation once immediately before each
request, and sleeps the fixed 150 ms delay exactly once between each
pair of consecutive requests; a cancellation first observed at the
poll before page `p` (`2 ≤ p ≤ N`) halts ingestion after the `p-1`
earlier requests and discards all accumulated features (`none`). -/
theorem pagination_amended :
    interPageDelayMs = 150 ∧
    (∀ (pgf : Nat → Page) (cancel : Nat → Bool), (∀ q, cancel q = false) →
      (sireneRun (fun p => .ok (pgf p)) cancel).1.requests =
        List.range' 1 (max (pgf 1).total_pages 1) ∧
      (sireneRun (fun p => .ok (pgf p)) cancel).1.checks =
        List.range' 1 (max (pgf 1).total_pages 1) ∧
      (sireneRun (fun p => .ok (pgf p)) cancel).1.sleeps =
        max (pgf 1).total_pages 1 - 1) ∧
    (∀ (pgf : Nat → Page) (cancel : Nat → Bool) (p : Nat),
      2 ≤ p → p ≤ (pgf 1).total_pages → cancel p = true →
      (∀ q, q < p → cancel q = false) →
      (sireneRun (fun q => .ok (pgf q)) cancel).2 = none ∧
      (sireneRun (fun q => .ok (pgf q)) cancel).1.requests =
        List.range' 1 (p - 1) ∧
      (sireneRun (fun q => .ok (pgf q)) cancel).1.checks = List.range' 1 p) := by
  refine ⟨rfl, ?_, ?_⟩
  · intro pgf cancel hc
    rw [sireneRun_complete pgf cancel hc]
    exact ⟨rfl, rfl, rfl⟩
  · intro pgf cancel p hp2 hpN hcp hc
    rw [sireneRun_cancel pgf cancel p hp2 hpN hcp hc]
    exact ⟨rfl, rfl, rfl⟩

/-- Witness for C2 (amended): a three-page stream yields requests
`[1, 2, 3]` with 2 sleeps; cancelling at the poll before page 2
leaves only request 1 and a discarded accumulation. -/
theorem pagination_amended_witness :
    (sireneRun (fun p => .ok (pgThree p)) (fun _ => false)).1.requests =
      List.range' 1 (max (pgThree 1).total_pages 1) ∧
    (sireneRun (fun q => .ok (pgThree q)) (fun q => decide (2 ≤ q))).2 = none ∧
    (sireneRun (fun q => .ok (pgThree q)) (fun q => decide (2 ≤ q))).1.requests =
      List.range' 1 (2 - 1) :=
  ⟨(pagination_amended.2.1 pgThree (fun _ => false) (fun _ => rfl)).1,
   (pagination_amended.2.2 pgThree (fun q => decide (2 ≤ q)) 2 (by decide)
      (by decide) (by decide) (fun q hq => decide_eq_false (by omega))).1,
   (pagination_amended.2.2 pgThree (fun q => decide (2 ≤ q)) 2 (by decide)
      (by decide) (by decide) (fun q hq => decide_eq_false (by omega))).2.1⟩

/-- C4: boundary resolution with zero candidates fails with the
not-found error; with exactly one candidate it returns that commune
without invoking the selection callback; with several candidates it
invokes the callback exactly once with the full candidate list, and a
declining callback yields cancellation, which makes the pipeline
abort with an error rather than proceed. -/
theorem boundary_resolution_cases :
    (∀ choose, searchCommune [] choose = ([], .notFound)) ∧
    (∀ env : PipeEnv, env.communes = [] →
      processAlgorithm env = .error .notFound) ∧
    (∀ c choose, searchCommune [c] choose = ([], .found c)) ∧
    (∀ f1 f2 rest choose,
      (searchCommune (f1 :: f2 :: rest) choose).1 = [f1 :: f2 :: rest]) ∧
    (∀ f1 f2 rest choose, choose (f1 :: f2 :: rest) = none →
      searchCommune (f1 :: f2 :: rest) choose =
        ([f1 :: f2 :: rest], .cancelledSel)) ∧
    (∀ env : PipeEnv, (searchCommune env.communes env.choose).2 = .cancelledSel →
      processAlgorithm env = .error .cancelledSelection) := by
  refine ⟨fun choose => rfl, ?_, fun c choose => rfl, fun f1 f2 rest choose => rfl,
    ?_, ?_⟩
  · intro env h
    unfold processAlgorithm
    rw [h]
    rfl
  · intro f1 f2 rest choose h
    simp [searchCommune, h]
  · intro env h
    unfold processAlgorithm
    rcases hs : searchCommune env.communes env.choose with ⟨calls, sr⟩
    rw [hs] at h
    simp only at h
    subst h
    rfl

/-- Witness for C4: the three cardinalities at concrete inputs, and
the concrete aborted pipeline. -/
theorem boundary_resolution_cases_witness :
    searchCommune [] (fun _ => none) = ([], .notFound) ∧
    searchCommune [communeX] (fun _ => none) = ([], .found communeX) ∧
    (searchCommune envTwoCommunes.communes envTwoCommunes.choose).1 =
      [envTwoCommunes.communes] ∧
    processAlgorithm envTwoCommunes = .error .cancelledSelection :=
  ⟨boundary_resolution_cases.1 (fun _ => none),
   boundary_resolution_cases.2.2.1 communeX (fun _ => none),
   boundary_resolution_cases.2.2.2.1 communeX
     { nom := "Annecy-le-Vieux", code := "74011" } [] envTwoCommunes.choose,
   boundary_resolution_cases.2.2.2.2.2 envTwoCommunes (by decide)⟩

/-- C6: when the loaded WFS layer is non-empty and the clip fails,
`_load_wfs_layer` pushes the clip warning and returns the unclipped
layer — never `None`; more generally, clip failure never turns a
produced layer into an absent one. -/
theorem clip_failure_returns_unclipped (ty disp : String) (n : Nat) (hn : n ≠ 0) :
    loadWfsLayer (.loaded n) false ty disp =
      ([.clipFailed disp], some (.wfsLayer ty "EPSG:2154" n)) ∧
    (∀ res : WfsLoadRes,
      ((loadWfsLayer res false ty disp).2).isSome =
        ((loadWfsLayer res true ty disp).2).isSome) := by
  constructor
  · simp [loadWfsLayer, hn]
  · intro res
    cases res with
    | invalid => rfl
    | loaded m => by_cases h0 : m = 0 <;> simp [loadWfsLayer, h0]

/-- Witness for C6: the buildings source with 3 features and a failing
clip is delivered unclipped, with the warning. -/
theorem clip_failure_returns_unclipped_witness :
    loadWfsLayer (.loaded 3) false "BDTOPO_V3:batiment" "Bâti" =
      ([.clipFailed "Bâti"],
       some (.wfsLayer "BDTOPO_V3:batiment" "EPSG:2154" 3)) :=
  (clip_failure_returns_unclipped "BDTOPO_V3:batiment" "Bâti" 3 (by decide)).1

/-- C5 counterexample: in a run where the clip of the buildings layer
fails, the layer delivered to composition is the raw WFS layer,
not clipped to the boundary — the invariant as claimed does not hold
of every delivered layer. -/
theorem delivered_unclipped_counterexample :
    ("buildings", Layer.wfsLayer "BDTOPO_V3:batiment" "EPSG:2154" 3) ∈
      composedLayers envClipFail ∧
    (Layer.wfsLayer "BDTOPO_V3:batiment" "EPSG:2154" 3).clippedToBoundary
      = false := by decide

/-- C5 amended: every layer delivered to composition is in EPSG:2154
(WFS layers are requested with `SRSNAME=EPSG:2154`; the SIRENE layer
is reprojected), and is clipped to the commune boundary except when
it is a WFS layer delivered raw through the clip-failure fallback. -/
theorem delivered_layer_frame_amended (env : PipeEnv) (k : String) (l : Layer)
    (h : (k, l) ∈ composedLayers env) :
    l.crsOf = "EPSG:2154" ∧
    (l.clippedToBoundary = true ∨ ∃ ty n, l = .wfsLayer ty "EPSG:2154" n) := by
  unfold composedLayers processAlgorithm at h
  rcases hs : searchCommune env.communes env.choose with ⟨calls, sr⟩
  rw [hs] at h
  cases sr with
  | notFound => simp at h
  | cancelledSel => simp at h
  | found c =>
    rcases hf : fetchWfsAux env wfsDefinitions 0 [] [] with ⟨warns, loaded, flag⟩
    rw [hf] at h
    have hloaded : ∀ x ∈ loaded, ∃ ty key n,
        x = (key, Layer.clipL (.wfsLayer ty "EPSG:2154" n) "_boundary") ∨
        x = (key, Layer.wfsLayer ty "EPSG:2154" n) := by
      intro x hx
      have hm := fetchWfsAux_mem env wfsDefinitions 0 [] [] x (by rw [hf]; exact hx)
      simpa using hm
    cases flag with
    | true => simp at h
    | false =>
      have hfinish : ∀ loaded2 : List (String × Layer),
          (∀ x ∈ loaded2, x ∈ loaded ∨
            ∃ acc, x.2 = Layer.clipL
              (.reprojectL (.memPoints acc "EPSG:4326") "EPSG:2154") "_boundary") →
          (k, l) ∈ composeOf loaded2 →
          l.crsOf = "EPSG:2154" ∧
          (l.clippedToBoundary = true ∨ ∃ ty n, l = .wfsLayer ty "EPSG:2154" n) := by
        intro loaded2 hl2 hmem
        have hkl := lookupKey_mem k l loaded2 (mem_composeOf k l loaded2 hmem)
        rcases hl2 (k, l) hkl with hx | ⟨acc, hx⟩
        · rcases hloaded (k, l) hx with ⟨ty, key2, n, hx2 | hx2⟩ <;>
            simp only [Prod.mk.injEq] at hx2
          · obtain ⟨-, rfl⟩ := hx2
            exact ⟨rfl, Or.inl rfl⟩
          · obtain ⟨-, rfl⟩ := hx2
            exact ⟨rfl, Or.inr ⟨ty, n, rfl⟩⟩
        · simp only at hx
          subst hx
          exact ⟨rfl, Or.inl rfl⟩
      by_cases hc8 : env.cancelFetch 8 = true
      · simp only [hc8, if_true] at h
        refine hfinish loaded (fun x hx => Or.inl hx) h
      · simp only [hc8, Bool.false_eq_true, if_false] at h
        rcases hls : loadSirene env.sResp env.sCancel env.sGeomOk with ⟨str, res⟩
        rw [hls] at h
        cases res with
        | none =>
          exact hfinish loaded (fun x hx => Or.inl hx) h
        | some l2 =>
          have hl2 : ∃ acc, l2 = Layer.clipL
              (.reprojectL (.memPoints acc "EPSG:4326") "EPSG:2154") "_boundary" := by
            unfold loadSirene at hls
            rcases hsr : sireneRun env.sResp env.sCancel with ⟨tr, res2⟩
            rw [hsr] at hls
            cases res2 with
            | none => simp at hls
            | some acc =>
              by_cases hz : acc.length = 0
              · simp [hz] at hls
              · cases hgeom : env.sGeomOk with
                | false => simp [hz, hgeom] at hls
                | true =>
                  refine ⟨acc, ?_⟩
                  simp only [hz, if_false, hgeom, if_true, Prod.mk.injEq,
                    Option.some.injEq] at hls
                  exact hls.2.symm
          obtain ⟨acc, rfl⟩ := hl2
          refine hfinish (loaded ++ [("sirene",
            Layer.clipL (.reprojectL (.memPoints acc "EPSG:4326") "EPSG:2154")
              "_boundary")]) ?_ h
          intro x hx
          rcases List.mem_append.mp hx with hx | hx
          · exact Or.inl hx
          · right
            refine ⟨acc, ?_⟩
            have : x = ("sirene", Layer.clipL
                (.reprojectL (.memPoints acc "EPSG:4326") "EPSG:2154")
                "_boundary") := by simpa using hx
            rw [this]

/-- Witness for C5 (amended): the clipped buildings layer of the
healthy run satisfies the invariant. -/
theorem delivered_layer_frame_amended_witness :
    (Layer.clipL (.wfsLayer "BDTOPO_V3:batiment" "EPSG:2154" 3)
      "_boundary").crsOf = "EPSG:2154" ∧
    ((Layer.clipL (.wfsLayer "BDTOPO_V3:batiment" "EPSG:2154" 3)
      "_boundary").clippedToBoundary = true ∨
     ∃ ty n, Layer.clipL (.wfsLayer "BDTOPO_V3:batiment" "EPSG:2154" 3)
        "_boundary" = .wfsLayer ty "EPSG:2154" n) :=
  delivered_layer_frame_amended envBase "buildings"
    (Layer.clipL (.wfsLayer "BDTOPO_V3:batiment" "EPSG:2154" 3) "_boundary")
    (by decide)

/-- C7: a WFS source that fails validation or returns zero features
yields a warning and `None`; in an uncancelled run with a resolved
commune, its style key is absent from the composition, while the run
still completes over all sources, each contributing according to its
own outcome (never aborting). -/
theorem wfs_source_failure_nonfatal (env : PipeEnv) (ty disp key : String)
    (hmem : (ty, disp, key) ∈ wfsDefinitions)
    (hbad : env.wfsLoad ty = .invalid ∨ env.wfsLoad ty = .loaded 0)
    (hc : ∀ i, env.cancelFetch i = false)
    (c : Commune) (calls : List (List Commune))
    (hs : searchCommune env.communes env.choose = (calls, .found c)) :
    (loadWfsLayer (env.wfsLoad ty) (env.wfsClipOk ty) ty disp).2 = none ∧
    (loadWfsLayer (env.wfsLoad ty) (env.wfsClipOk ty) ty disp).1 ≠ [] ∧
    key ∉ (composedLayers env).map Prod.fst ∧
    processAlgorithm env = .ok
      (wfsWarnsOn env wfsDefinitions ++
        (loadSirene env.sResp env.sCancel env.sGeomOk).1.warns,
       composeOf (wfsResultsOn env wfsDefinitions ++ sireneEntry env)) := by
  have hload : (loadWfsLayer (env.wfsLoad ty) (env.wfsClipOk ty) ty disp).2 = none := by
    rcases hbad with hb | hb <;> simp [loadWfsLayer, hb]
  have hwarn : (loadWfsLayer (env.wfsLoad ty) (env.wfsClipOk ty) ty disp).1 ≠ [] := by
    rcases hbad with hb | hb <;> simp [loadWfsLayer, hb]
  have hpa := processAlgorithm_noCancel env c calls hs hc
  have hcomp : composedLayers env =
      composeOf (wfsResultsOn env wfsDefinitions ++ sireneEntry env) := by
    unfold composedLayers
    rw [hpa]
  have huniq : ∀ d1 ∈ wfsDefinitions, ∀ d2 ∈ wfsDefinitions,
      d1.2.2 = d2.2.2 → d1 = d2 := by decide
  have hknot : key ≠ "sirene" := by
    have : ∀ d ∈ wfsDefinitions, d.2.2 ≠ "sirene" := by decide
    exact this (ty, disp, key) hmem
  have hlk : lookupKey key (wfsResultsOn env wfsDefinitions) = none := by
    refine lookupKey_wfsResultsOn_none env key wfsDefinitions ?_
    intro d hd hdk
    have hdeq : d = (ty, disp, key) := huniq d hd (ty, disp, key) hmem hdk
    rw [hdeq]
    exact hload
  have hse : lookupKey key (sireneEntry env) = none := by
    unfold sireneEntry
    rcases hls : (loadSirene env.sResp env.sCancel env.sGeomOk).2 with _ | l
    · simp [lookupKey]
    · simp only [lookupKey]
      rw [List.find?_cons_of_neg _ (by simp [Ne.symm hknot])]
      simp
  refine ⟨hload, hwarn, ?_, hpa⟩
  intro hkm
  rw [hcomp] at hkm
  obtain ⟨⟨k2, l2⟩, hx, hfst⟩ := List.mem_map.mp hkm
  simp only at hfst
  subst hfst
  have hlook := mem_composeOf k2 l2 _ hx
  rw [lookupKey_append, hlk, hse] at hlook
  exact Option.noConfusion hlook

/-- Witness for C7: the empty buildings source of
`envEmptyBuildings` is absent from the composition of an otherwise
complete run. -/
theorem wfs_source_failure_nonfatal_witness :
    (loadWfsLayer (envEmptyBuildings.wfsLoad "BDTOPO_V3:batiment")
      (envEmptyBuildings.wfsClipOk "BDTOPO_V3:batiment")
      "BDTOPO_V3:batiment" "Bâti").2 = none ∧
    "buildings" ∉ (composedLayers envEmptyBuildings).map Prod.fst :=
  ⟨(wfs_source_failure_nonfatal envEmptyBuildings "BDTOPO_V3:batiment" "Bâti"
      "buildings" (by decide) (Or.inr (by decide)) (fun i => rfl)
      communeX [] rfl).1,
   (wfs_source_failure_nonfatal envEmptyBuildings "BDTOPO_V3:batiment" "Bâti"
      "buildings" (by decide) (Or.inr (by decide)) (fun i => rfl)
      communeX [] rfl).2.2.1⟩

/-- C8: an HTTP failure on any registry page request (all earlier
pages succeeding, no cancellation) makes `_load_sirene` return null
with a warning — the accumulated features are discarded; and in the
pipeline a null SIRENE result merely leaves the registry layer out of
the composition of an otherwise successful run, never aborting it. -/
theorem sirene_http_failure_aborts :
    (∀ (resp : Nat → Except Unit Page) (cancel : Nat → Bool) (geomOk : Bool)
       (pgf : Nat → Page) (p : Nat),
      (∀ q, cancel q = false) →
      (∀ q, 1 ≤ q → q < p → resp q = .ok (pgf q)) →
      resp p = .error () → 1 ≤ p → p ≤ max (pgf 1).total_pages 1 →
      (loadSirene resp cancel geomOk).2 = none ∧
      Warn.sireneHttp ∈ (loadSirene resp cancel geomOk).1.warns) ∧
    (∀ (env : PipeEnv) (c : Commune) (calls : List (List Commune)),
      searchCommune env.communes env.choose = (calls, .found c) →
      (∀ i, env.cancelFetch i = false) →
      (loadSirene env.sResp env.sCancel env.sGeomOk).2 = none →
      "sirene" ∉ (composedLayers env).map Prod.fst ∧
      processAlgorithm env = .ok
        (wfsWarnsOn env wfsDefinitions ++
          (loadSirene env.sResp env.sCancel env.sGeomOk).1.warns,
         composeOf (wfsResultsOn env wfsDefinitions))) := by
  constructor
  · intro resp cancel geomOk pgf p hc hok herr hp1 hpN
    have hrun := sireneRun_error resp cancel pgf p hc hok herr hp1 hpN
    unfold loadSirene
    rcases hsr : sireneRun resp cancel with ⟨tr, res⟩
    rw [hsr] at hrun
    cases res with
    | none => exact ⟨rfl, hrun.2⟩
    | some acc => exact absurd hrun.1 (by simp)
  · intro env c calls hs hc hnone
    have hpa := processAlgorithm_noCancel env c calls hs hc
    have hsenil : sireneEntry env = [] := by
      unfold sireneEntry
      rw [hnone]
    rw [hsenil, List.append_nil] at hpa
    have hcomp : composedLayers env = composeOf (wfsResultsOn env wfsDefinitions) := by
      unfold composedLayers
      rw [hpa]
    refine ⟨?_, hpa⟩
    intro hkm
    rw [hcomp] at hkm
    obtain ⟨⟨k2, l2⟩, hx, hfst⟩ := List.mem_map.mp hkm
    simp only at hfst
    subst hfst
    have hlook := mem_composeOf "sirene" l2 _ hx
    have hlk : lookupKey "sirene" (wfsResultsOn env wfsDefinitions) = none := by
      refine lookupKey_wfsResultsOn_none env "sirene" wfsDefinitions ?_
      intro d hd hdk
      have : ∀ d2 ∈ wfsDefinitions, ¬ d2.2.2 = "sirene" := by decide
      exact absurd hdk (this d hd)
    rw [hlk] at hlook
    exact Option.noConfusion hlook

/-- Witness for C8: the HTTP failure on page 2 of `respErr2` discards
the ingestion, and in `envSireneErr` the registry layer is simply
absent from the composition. -/
theorem sirene_http_failure_aborts_witness :
    (loadSirene respErr2 (fun _ => false) true).2 = none ∧
    Warn.sireneHttp ∈ (loadSirene respErr2 (fun _ => false) true).1.warns ∧
    "sirene" ∉ (composedLayers envSireneErr).map Prod.fst :=
  ⟨(sirene_http_failure_aborts.1 respErr2 (fun _ => false) true pgThree 2
      (fun _ => rfl)
      (fun q h1 h2 => by
        have hq : q = 1 := by omega
        subst hq
        rfl)
      rfl (by decide) (by decide)).1,
   (sirene_http_failure_aborts.1 respErr2 (fun _ => false) true pgThree 2
      (fun _ => rfl)
      (fun q h1 h2 => by
        have hq : q = 1 := by omega
        subst hq
        rfl)
      rfl (by decide) (by decide)).2,
   (sirene_http_failure_aborts.2 envSireneErr communeX [] rfl (fun i => rfl)
      (by decide)).1⟩

/-- C9 counterexample: in `envCancelAt1` the first source's layer is
successfully collected, cancellation is observed before source 2, and
the algorithm then returns `{}` — the composition is empty, not "the
layers collected so far". -/
theorem cancellation_discards_counterexample :
    ((loadWfsLayer (envCancelAt1.wfsLoad "ADMINEXPRESS-COG-CARTO.LATEST:commune")
        (envCancelAt1.wfsClipOk "ADMINEXPRESS-COG-CARTO.LATEST:commune")
        "ADMINEXPRESS-COG-CARTO.LATEST:commune" "Commune (limite)").2).isSome
      = true ∧
    (fetchWfsAux envCancelAt1 wfsDefinitions 0 [] []).2.1 ≠ [] ∧
    composedLayers envCancelAt1 = [] := by decide

/-- C9 amended: cancellation observed before source `p` of the WFS
fetch loop halts the remaining fetches and makes the whole algorithm
return `{}` immediately: the layers already collected (those of the
first `p` sources) are discarded, and nothing is composed. -/
theorem cancellation_returns_empty_amended (env : PipeEnv) (c : Commune)
    (calls : List (List Commune)) (p : Nat)
    (hs : searchCommune env.communes env.choose = (calls, .found c))
    (hcp : env.cancelFetch p = true)
    (hc : ∀ q, q < p → env.cancelFetch q = false) (hp : p < 8) :
    processAlgorithm env = .ok (wfsWarnsOn env (wfsDefinitions.take p), []) ∧
    (fetchWfsAux env wfsDefinitions 0 [] []).2.1 =
      wfsResultsOn env (wfsDefinitions.take p) ∧
    composedLayers env = [] := by
  have h := processAlgorithm_cancelDuringFetch env c calls p hs hcp hc hp
  refine ⟨h.1, h.2, ?_⟩
  unfold composedLayers
  rw [h.1]

/-- Witness for C9 (amended): `envCancelAt1`, cancelled before source
1, composes nothing. -/
theorem cancellation_returns_empty_amended_witness :
    processAlgorithm envCancelAt1 =
      .ok (wfsWarnsOn envCancelAt1 (wfsDefinitions.take 1), []) ∧
    composedLayers envCancelAt1 = [] :=
  ⟨(cancellation_returns_empty_amended envCancelAt1 communeX [] 1 rfl rfl
      (fun q hq => by
        have hq0 : q = 0 := by omega
        subst hq0
        rfl)
      (by decide)).1,
   (cancellation_returns_empty_amended envCancelAt1 communeX [] 1 rfl rfl
      (fun q hq => by
        have hq0 : q = 0 := by omega
        subst hq0
        rfl)
      (by decide)).2.2⟩

end FDP
